import Mathlib

/-!
Verification of the MEV-engine core: nonce sequencing, bundle execution,
profitability arithmetic, arbitrage scanning and mempool decoding.

The definitions below are shallow embeddings of the TypeScript sources:
  * `NonceManager` (src/unnamed/part_001, lines 395-480),
  * `FlashbotsMEVExecutor.executeSandwich` / `periodicResync` (src/flashbots.ts),
  * `FlashLoanArbitrageBot.findArbitrage` / `scanAllPairs` (src/unnamed/part_001),
  * `MempoolMonitor.analyzeTransaction` / `start` (src/mempool.ts).

Conventions of the embedding:
  * JS `number` block heights and nonces are `Nat`; wei amounts (`bigint`)
    are `Nat` (they are non-negative throughout the sources); BigNumber
    values that may go negative (the arbitrage `profit`) are `Int`.
  * Amounts the source compares as ETH-denominated floating-point numbers
    (`parseFloat(ethers.formatEther(x))`) are compared here exactly in wei;
    percentage arithmetic done in JS floats is done exactly in `ℚ`.
  * Chain reads (`getTransactionCount`, `getBlockNumber`, fee data, router
    quotes) are passed in as explicit parameters: one call site per read,
    mirroring the order of the awaits in the source.
  * A fallible external call is an `Option` (quote calls) or an explicit
    boolean "this call threw" flag (executor paths); a thrown JS exception
    that the source does not catch is the `ExecResult.thrown` outcome.
-/

/-- State of `NonceManager` (src/unnamed/part_001): the optimistically
advanced allocatable nonce, the set of in-flight (allocated, unresolved)
nonces, and the block height of the last resynchronization. -/
structure NonceState where
  currentNonce : Nat
  pendingNonces : Finset Nat
  lastSyncBlock : Nat
deriving DecidableEq

/-- The chain-provider reads the nonce manager performs:
`getTransactionCount(addr, 'pending')`, `getTransactionCount(addr, 'latest')`
and `getBlockNumber()`.  Each operation reads the field corresponding to the
RPC call it awaits in the source. -/
structure Provider where
  pendingCount : Nat
  latestCount : Nat
  blockNumber : Nat
deriving DecidableEq

/-- `NonceManager.getNextNoncePair`: returns `(currentNonce, currentNonce+1)`,
adds both to `pendingNonces`, and advances `currentNonce` by 2. -/
def getNextNoncePair (s : NonceState) : (Nat × Nat) × NonceState :=
  let frontRunNonce := s.currentNonce
  let backRunNonce := s.currentNonce + 1
  ((frontRunNonce, backRunNonce),
    { currentNonce := s.currentNonce + 2
      pendingNonces := insert backRunNonce (insert frontRunNonce s.pendingNonces)
      lastSyncBlock := s.lastSyncBlock })

/-- `NonceManager.confirmBundle`: deletes the two given nonces from the
in-flight set; nothing else changes. -/
def confirmBundle (frontRunNonce backRunNonce : Nat) (s : NonceState) : NonceState :=
  { s with pendingNonces := (s.pendingNonces.erase frontRunNonce).erase backRunNonce }

/-- `NonceManager.handleBundleFailure`: sets `currentNonce` to the chain's
`latest` (confirmed) transaction count and clears the in-flight set.
It does **not** touch `lastSyncBlock`. -/
def handleBundleFailure (p : Provider) (s : NonceState) : NonceState :=
  { currentNonce := p.latestCount
    pendingNonces := ∅
    lastSyncBlock := s.lastSyncBlock }

/-- `NonceManager.resyncIfNeeded`: reads the current block number; if at
least 10 blocks have elapsed since `lastSyncBlock` or more than 10 nonces
are in flight, sets `currentNonce` to the chain's **pending** transaction
count, clears the in-flight set and records the current block as
`lastSyncBlock`; otherwise does nothing.  (JS `currentBlock - lastSyncBlock`
on block heights with `currentBlock < lastSyncBlock` is negative, hence
below 10, matching truncated `Nat` subtraction.) -/
def resyncIfNeeded (p : Provider) (s : NonceState) : NonceState :=
  if 10 ≤ p.blockNumber - s.lastSyncBlock ∨ 10 < s.pendingNonces.card then
    { currentNonce := p.pendingCount
      pendingNonces := ∅
      lastSyncBlock := p.blockNumber }
  else s

/-- The nonce-manager state after `k` successive `getNextNoncePair` calls
starting from `s`, with no intervening failure handling or resync. -/
def allocState (s : NonceState) : Nat → NonceState
  | 0 => s
  | k + 1 => (getNextNoncePair (allocState s k)).2

/-- The pair returned by the `(k+1)`-st `getNextNoncePair` call (0-indexed
`k`) in a run of successive allocations starting from `s`. -/
def allocPairAt (s : NonceState) (k : Nat) : Nat × Nat :=
  (getNextNoncePair (allocState s k)).1

theorem allocState_currentNonce (s : NonceState) :
    ∀ k, (allocState s k).currentNonce = s.currentNonce + 2 * k := by
  intro k
  induction k with
  | zero => simp [allocState]
  | succ k ih =>
    simp [allocState, getNextNoncePair, ih]
    ring

theorem allocPairAt_eq (s : NonceState) (k : Nat) :
    allocPairAt s k = (s.currentNonce + 2 * k, s.currentNonce + 2 * k + 1) := by
  simp [allocPairAt, getNextNoncePair, allocState_currentNonce]

/-- **C1.** Sequential allocation with no intervening failure/resync: the
`k`-th call (0-indexed) returns exactly `(n + 2k, n + 2k + 1)` where `n` is
the starting allocatable nonce, marks both numbers in-flight, advances the
allocatable nonce by 2, and any earlier pair ends strictly below the later
pair's first element (so the pairs are strictly increasing and
non-overlapping). -/
theorem getNextNoncePair_sequential (s : NonceState) (k j : Nat) :
    allocPairAt s k = (s.currentNonce + 2 * k, s.currentNonce + 2 * k + 1)
    ∧ s.currentNonce + 2 * k ∈ (allocState s (k + 1)).pendingNonces
    ∧ s.currentNonce + 2 * k + 1 ∈ (allocState s (k + 1)).pendingNonces
    ∧ (allocState s (k + 1)).currentNonce = (allocState s k).currentNonce + 2
    ∧ (j < k → (allocPairAt s j).2 < (allocPairAt s k).1) := by
  refine ⟨allocPairAt_eq s k, ?_, ?_, ?_, fun hjk => ?_⟩
  · simp [allocState, getNextNoncePair, allocState_currentNonce]
  · simp [allocState, getNextNoncePair, allocState_currentNonce]
  · simp [allocState, getNextNoncePair]
  · simp [allocPairAt_eq]
    omega

/-- Witness for C1: starting at nonce 5, the first call returns (5, 6) with
both marked in-flight and the counter advanced by 2; and the first call's
pair ends strictly below the second call's first element 7. -/
theorem getNextNoncePair_sequential_witness :
    (allocPairAt ⟨5, ∅, 0⟩ 0 = (5 + 2 * 0, 5 + 2 * 0 + 1)
      ∧ 5 + 2 * 0 ∈ (allocState ⟨5, ∅, 0⟩ (0 + 1)).pendingNonces
      ∧ 5 + 2 * 0 + 1 ∈ (allocState ⟨5, ∅, 0⟩ (0 + 1)).pendingNonces
      ∧ (allocState ⟨5, ∅, 0⟩ (0 + 1)).currentNonce
        = (allocState ⟨5, ∅, 0⟩ 0).currentNonce + 2)
    ∧ (0 < 1 ∧ (allocPairAt ⟨5, ∅, 0⟩ 0).2 < (allocPairAt ⟨5, ∅, 0⟩ 1).1) :=
  ⟨⟨(getNextNoncePair_sequential ⟨5, ∅, 0⟩ 0 0).1,
    (getNextNoncePair_sequential ⟨5, ∅, 0⟩ 0 0).2.1,
    (getNextNoncePair_sequential ⟨5, ∅, 0⟩ 0 0).2.2.1,
    (getNextNoncePair_sequential ⟨5, ∅, 0⟩ 0 0).2.2.2.1⟩,
   by decide,
   (getNextNoncePair_sequential ⟨5, ∅, 0⟩ 1 0).2.2.2.2 (by decide)⟩

/-- **C2.** After `handleBundleFailure` the in-flight set is empty and the
allocatable nonce equals the chain's confirmed (`latest`) transaction count
read during the call, so the next `getNextNoncePair` returns exactly
`(latestCount, latestCount + 1)` — regardless of the prior state. -/
theorem handleBundleFailure_resets (p : Provider) (s : NonceState) :
    (handleBundleFailure p s).pendingNonces = ∅
    ∧ (handleBundleFailure p s).currentNonce = p.latestCount
    ∧ (getNextNoncePair (handleBundleFailure p s)).1 = (p.latestCount, p.latestCount + 1) := by
  refine ⟨rfl, rfl, ?_⟩
  simp [handleBundleFailure, getNextNoncePair]

/-- **C3 counterexample.** The claim says the stale branch of
`resyncIfNeeded` performs the same resynchronization as
`handleBundleFailure`, resetting the allocatable nonce to the confirmed
sequence count.  With pending count 7, confirmed (`latest`) count 5, block
number 20 and last sync at block 0 (so the staleness condition holds), the
two operations disagree: `resyncIfNeeded` sets the nonce to the pending
count 7, not the confirmed count 5, and it also updates `lastSyncBlock`. -/
theorem resyncIfNeeded_ne_handleBundleFailure :
    (10 ≤ (20 : Nat) - (0 : Nat) ∨ 10 < (∅ : Finset Nat).card)
    ∧ resyncIfNeeded ⟨7, 5, 20⟩ ⟨0, ∅, 0⟩ ≠ handleBundleFailure ⟨7, 5, 20⟩ ⟨0, ∅, 0⟩
    ∧ (resyncIfNeeded ⟨7, 5, 20⟩ ⟨0, ∅, 0⟩).currentNonce ≠ 5 := by
  refine ⟨Or.inl (by decide), ?_, ?_⟩ <;> decide

/-- **C3 (amended).** `resyncIfNeeded` is a no-op when fewer than 10 blocks
have elapsed since the last sync and at most 10 nonces are in flight;
otherwise it resets the allocatable nonce to the chain's **pending**
transaction count (not the confirmed count `handleBundleFailure` uses),
empties the in-flight set, and records the current block as the last sync
point. -/
theorem resyncIfNeeded_cases (p : Provider) (s : NonceState) :
    (p.blockNumber - s.lastSyncBlock < 10 → s.pendingNonces.card ≤ 10 →
      resyncIfNeeded p s = s)
    ∧ (10 ≤ p.blockNumber - s.lastSyncBlock ∨ 10 < s.pendingNonces.card →
      resyncIfNeeded p s = ⟨p.pendingCount, ∅, p.blockNumber⟩) := by
  constructor
  · intro h1 h2
    have hno : ¬(10 ≤ p.blockNumber - s.lastSyncBlock ∨ 10 < s.pendingNonces.card) := by
      omega
    simp only [resyncIfNeeded, if_neg hno]
  · intro h
    simp only [resyncIfNeeded, if_pos h]

/-- Witness for the amended C3: at block 20 with last sync at block 0 the
staleness branch fires and resets the state to the pending count 9. -/
theorem resyncIfNeeded_cases_witness :
    resyncIfNeeded ⟨9, 4, 20⟩ ⟨3, ∅, 0⟩ = ⟨9, ∅, 20⟩ :=
  (resyncIfNeeded_cases ⟨9, 4, 20⟩ ⟨3, ∅, 0⟩).2 (Or.inl (by decide))

/-- `FlashbotsMEVExecutor.periodicResync` (src/flashbots.ts, lines 194-197):
the method body consists solely of a commented-out call to
`nonceManager.resyncIfNeeded()`, so the interval handler performs no
operation on the nonce manager state. -/
def periodicResync (_p : Provider) (s : NonceState) : NonceState :=
  s

/-- **C4.** The fixed-interval handler `periodicResync` never changes the
sequencer state, while the claimed `resyncIfNeeded` call would: at the
concrete input where 20 blocks have elapsed since the last sync (pending
count 7), `periodicResync` leaves the state unchanged but `resyncIfNeeded`
would resynchronize it.  The `resyncIfNeeded()` call inside
`periodicResync` is commented out in the source. -/
theorem periodicResync_is_noop :
    (∀ (p : Provider) (s : NonceState), periodicResync p s = s)
    ∧ periodicResync ⟨7, 5, 20⟩ ⟨0, ∅, 0⟩ = ⟨0, ∅, 0⟩
    ∧ resyncIfNeeded ⟨7, 5, 20⟩ ⟨0, ∅, 0⟩ ≠ ⟨0, ∅, 0⟩ := by
  refine ⟨fun p s => rfl, rfl, by decide⟩

/-! ## Bundle executor (`FlashbotsMEVExecutor.executeSandwich`) -/

/-- The sandwich opportunity fields `executeSandwich` reads:
`parseEther(op.estimatedProfitEth)` in wei, and the victim transaction's
gas limit (`op.targetTxParsed.gasLimit ?? 200_000n`). -/
structure SandwichOp where
  estimatedProfitWei : Nat
  victimGasLimit : Option Nat
deriving DecidableEq

/-- `provider.getFeeData()` result: each field is `bigint | null` in the
source.  `some 0` is distinct from `none`, but JS `!x` treats both `null`
and `0n` as falsy, see `feeFalsy`. -/
structure FeeData where
  maxFeePerGas : Option Nat
  maxPriorityFeePerGas : Option Nat
deriving DecidableEq

/-- JS falsiness of a `bigint | null` value: `null` and `0n` are falsy. -/
def feeFalsy : Option Nat → Bool
  | none => true
  | some v => v = 0

/-- Environment of one `executeSandwich` attempt: the configured minimum
profit (in wei), the fee data the provider returns, and the behaviour of
each fallible external call on this attempt (`true` = the awaited promise
rejects), plus the relay's simulation result and the `bundle.wait()`
resolution code. -/
structure ExecEnv where
  minProfitWei : Nat
  feeData : FeeData
  feeThrows : Bool
  signThrows : Bool
  relayThrows : Bool
  simError : Bool
  waitResult : Nat
deriving DecidableEq

/-- How one `executeSandwich` call terminates: `ok b` is a normal return of
`b`; `thrown` is an exception that propagates out of the method uncaught. -/
inductive ExecResult where
  | ok (success : Bool)
  | thrown
deriving DecidableEq

/-- Observable outcome of one `executeSandwich` attempt: the return/throw
status, whether `getNextNoncePair` was called, whether signing was reached,
the back-run transaction's `maxPriorityFeePerGas` when it was computed, and
the final nonce-manager state. -/
structure ExecOutcome where
  result : ExecResult
  allocated : Bool
  signed : Bool
  backRunFee : Option Nat
  state : NonceState
deriving DecidableEq

/-- Gas limits hard-coded in `executeSandwich`. -/
def frontGasLimit : Nat := 300000

/-- Back-run gas limit hard-coded in `executeSandwich`. -/
def backGasLimit : Nat := 350000

/-- `totalGasCostWei = frontGasLimit*maxFee + victimGasLimit*maxFee +
backGasLimit*maxFee`. -/
def totalGasCostWei (maxFee victimGas : Nat) : Nat :=
  frontGasLimit * maxFee + victimGas * maxFee + backGasLimit * maxFee

/-- `netProfitWei = estimatedProfitWei > totalGasCostWei ?
estimatedProfitWei - totalGasCostWei : 0n`. -/
def netProfitWei (profit gasCost : Nat) : Nat :=
  if gasCost < profit then profit - gasCost else 0

/-- `bribeAmountWei = netProfitWei * 80n / 100n` (bigint division). -/
def bribeAmountWei (net : Nat) : Nat :=
  net * 80 / 100

/-- `backRunPriorityFee = feeData.maxPriorityFeePerGas + bribeAmountWei /
backGasLimit`. -/
def backRunPriorityFee (maxPrio net : Nat) : Nat :=
  maxPrio + bribeAmountWei net / backGasLimit

/-- Shallow embedding of `FlashbotsMEVExecutor.executeSandwich`
(src/flashbots.ts, lines 57-167), step for step:
gross-profit gate, nonce allocation, fee-data fetch (an exception here is
uncaught), falsy-fee check, net-profit re-check, bribe computation, signing
(an exception here is uncaught), then the `try` block around
`sendRawBundle`/`simulate`/`wait` whose `catch`, simulation-error branch and
nonzero-resolution branch all call `handleBundleFailure`, while resolution
code 0 calls `confirmBundle`. -/
def executeSandwich (p : Provider) (env : ExecEnv) (op : SandwichOp)
    (s : NonceState) : ExecOutcome :=
  if op.estimatedProfitWei < env.minProfitWei then
    ⟨.ok false, false, false, none, s⟩
  else
    let alloc := getNextNoncePair s
    let frontNonce := alloc.1.1
    let backNonce := alloc.1.2
    let s1 := alloc.2
    if env.feeThrows then
      ⟨.thrown, true, false, none, s1⟩
    else if feeFalsy env.feeData.maxFeePerGas ∨ feeFalsy env.feeData.maxPriorityFeePerGas then
      ⟨.ok false, true, false, none, handleBundleFailure p s1⟩
    else
      let maxFee := (env.feeData.maxFeePerGas).getD 0
      let maxPrio := (env.feeData.maxPriorityFeePerGas).getD 0
      let victimGas := op.victimGasLimit.getD 200000
      let net := netProfitWei op.estimatedProfitWei (totalGasCostWei maxFee victimGas)
      if net < env.minProfitWei then
        ⟨.ok false, true, false, none, handleBundleFailure p s1⟩
      else
        let fee := backRunPriorityFee maxPrio net
        if env.signThrows then
          ⟨.thrown, true, true, some fee, s1⟩
        else if env.relayThrows then
          ⟨.ok false, true, true, some fee, handleBundleFailure p s1⟩
        else if env.simError then
          ⟨.ok false, true, true, some fee, handleBundleFailure p s1⟩
        else if env.waitResult = 0 then
          ⟨.ok true, true, true, some fee, confirmBundle frontNonce backNonce s1⟩
        else
          ⟨.ok false, true, true, some fee, handleBundleFailure p s1⟩

/-- **C5.** The executor allocates nonces only after the opportunity passes
the profitability threshold gate at the top of `executeSandwich`: an
opportunity whose estimated profit is below the configured minimum returns
failure with no allocation and the sequencer state untouched, and
conversely any attempt that did allocate must have passed the gate. -/
theorem executeSandwich_profit_gate (p : Provider) (env : ExecEnv)
    (op : SandwichOp) (s : NonceState) :
    (op.estimatedProfitWei < env.minProfitWei →
      executeSandwich p env op s = ⟨.ok false, false, false, none, s⟩)
    ∧ ((executeSandwich p env op s).allocated = true →
      env.minProfitWei ≤ op.estimatedProfitWei) := by
  constructor
  · intro h
    simp [executeSandwich, h]
  · intro h
    by_contra hlt
    push_neg at hlt
    simp [executeSandwich, hlt] at h

/-- Witness for C5: an opportunity with estimated profit 5 wei against a
10-wei minimum is rejected with the sequencer state `⟨3, ∅, 0⟩` unchanged. -/
theorem executeSandwich_profit_gate_witness :
    executeSandwich ⟨0, 0, 0⟩ ⟨10, ⟨none, none⟩, false, false, false, false, 0⟩
      ⟨5, none⟩ ⟨3, ∅, 0⟩ = ⟨.ok false, false, false, none, ⟨3, ∅, 0⟩⟩ :=
  (executeSandwich_profit_gate ⟨0, 0, 0⟩ ⟨10, ⟨none, none⟩, false, false, false, false, 0⟩
    ⟨5, none⟩ ⟨3, ∅, 0⟩).1 (by decide)

/-- **C6 counterexample.** The claim states that *any* exception during
signing or fee-data retrieval terminates the attempt as failure with
`handleBundleFailure` invoked.  In the source, `getFeeData()` and
`signTransaction()` are awaited outside the `try` block, so an exception
there propagates out of `executeSandwich` uncaught: at the concrete inputs
below the outcome is `thrown` (not a failure return) and the in-flight set
still holds the allocated pair `{5, 6}` — `handleBundleFailure` never ran. -/
theorem executeSandwich_uncaught_exceptions :
    ((executeSandwich ⟨0, 0, 0⟩ ⟨0, ⟨some 1, some 1⟩, false, true, false, false, 0⟩
        ⟨0, none⟩ ⟨5, ∅, 0⟩).result = .thrown
      ∧ (executeSandwich ⟨0, 0, 0⟩ ⟨0, ⟨some 1, some 1⟩, false, true, false, false, 0⟩
        ⟨0, none⟩ ⟨5, ∅, 0⟩).state.pendingNonces = {6, 5})
    ∧ ((executeSandwich ⟨0, 0, 0⟩ ⟨0, ⟨some 1, some 1⟩, true, false, false, false, 0⟩
        ⟨0, none⟩ ⟨5, ∅, 0⟩).result = .thrown
      ∧ (executeSandwich ⟨0, 0, 0⟩ ⟨0, ⟨some 1, some 1⟩, true, false, false, false, 0⟩
        ⟨0, none⟩ ⟨5, ∅, 0⟩).state.pendingNonces = {6, 5}) := by
  decide

/-- **C6 (amended).** For every bundle attempt that passes the gross-profit
gate: a fee-data fetch that throws propagates uncaught with no recovery;
fee data with falsy (null/zero) fields returns failure after
`handleBundleFailure`; past the net-profit check, a signing exception
propagates uncaught with no recovery, while an exception inside the
relay `try` block, a simulation error object, or a nonzero resolution code
each return failure with `handleBundleFailure` invoked (in-flight set
empty), and resolution code 0 returns success with `confirmBundle`
removing the attempt's two nonces.  No branch retries the payload. -/
theorem executeSandwich_failure_handling (p : Provider) (env : ExecEnv)
    (op : SandwichOp) (s : NonceState)
    (hgross : env.minProfitWei ≤ op.estimatedProfitWei) :
    (env.feeThrows = true →
      (executeSandwich p env op s).result = .thrown
      ∧ (executeSandwich p env op s).state = (getNextNoncePair s).2)
    ∧ (env.feeThrows = false →
      (feeFalsy env.feeData.maxFeePerGas ∨ feeFalsy env.feeData.maxPriorityFeePerGas) →
      (executeSandwich p env op s).result = .ok false
      ∧ (executeSandwich p env op s).state = handleBundleFailure p (getNextNoncePair s).2)
    ∧ (env.feeThrows = false →
      feeFalsy env.feeData.maxFeePerGas = false →
      feeFalsy env.feeData.maxPriorityFeePerGas = false →
      env.minProfitWei ≤ netProfitWei op.estimatedProfitWei
        (totalGasCostWei (env.feeData.maxFeePerGas.getD 0) (op.victimGasLimit.getD 200000)) →
      (env.signThrows = true →
        (executeSandwich p env op s).result = .thrown
        ∧ (executeSandwich p env op s).state = (getNextNoncePair s).2)
      ∧ (env.signThrows = false → env.relayThrows = true →
        (executeSandwich p env op s).result = .ok false
        ∧ (executeSandwich p env op s).state = handleBundleFailure p (getNextNoncePair s).2
        ∧ (executeSandwich p env op s).state.pendingNonces = ∅)
      ∧ (env.signThrows = false → env.relayThrows = false → env.simError = true →
        (executeSandwich p env op s).result = .ok false
        ∧ (executeSandwich p env op s).state = handleBundleFailure p (getNextNoncePair s).2
        ∧ (executeSandwich p env op s).state.pendingNonces = ∅)
      ∧ (env.signThrows = false → env.relayThrows = false → env.simError = false →
          env.waitResult = 0 →
        (executeSandwich p env op s).result = .ok true
        ∧ (executeSandwich p env op s).state
            = confirmBundle s.currentNonce (s.currentNonce + 1) (getNextNoncePair s).2
        ∧ s.currentNonce ∉ (executeSandwich p env op s).state.pendingNonces
        ∧ s.currentNonce + 1 ∉ (executeSandwich p env op s).state.pendingNonces)
      ∧ (env.signThrows = false → env.relayThrows = false → env.simError = false →
          env.waitResult ≠ 0 →
        (executeSandwich p env op s).result = .ok false
        ∧ (executeSandwich p env op s).state = handleBundleFailure p (getNextNoncePair s).2
        ∧ (executeSandwich p env op s).state.pendingNonces = ∅)) := by
  have hg : ¬ op.estimatedProfitWei < env.minProfitWei := not_lt.mpr hgross
  refine ⟨fun hft => ?_, fun hft hfal => ?_, fun hft hf1 hf2 hnet => ?_⟩
  · constructor <;> simp [executeSandwich, hg, hft]
  · constructor <;> simp [executeSandwich, hg, hft, hfal]
  · have hn : ¬ netProfitWei op.estimatedProfitWei
        (totalGasCostWei (env.feeData.maxFeePerGas.getD 0) (op.victimGasLimit.getD 200000))
        < env.minProfitWei := not_lt.mpr hnet
    refine ⟨fun hst => ?_, fun hst hrt => ?_, fun hst hrt hse => ?_,
      fun hst hrt hse hw => ?_, fun hst hrt hse hw => ?_⟩
    · constructor <;> simp [executeSandwich, hg, hft, hf1, hf2, hn, hst]
    · refine ⟨?_, ?_, ?_⟩ <;>
        simp [executeSandwich, hg, hft, hf1, hf2, hn, hst, hrt, handleBundleFailure]
    · refine ⟨?_, ?_, ?_⟩ <;>
        simp [executeSandwich, hg, hft, hf1, hf2, hn, hst, hrt, hse, handleBundleFailure]
    · refine ⟨?_, ?_, ?_, ?_⟩ <;>
        simp [executeSandwich, hg, hft, hf1, hf2, hn, hst, hrt, hse, hw,
          confirmBundle, getNextNoncePair, Finset.mem_erase]
    · refine ⟨?_, ?_, ?_⟩ <;>
        simp [executeSandwich, hg, hft, hf1, hf2, hn, hst, hrt, hse, hw, handleBundleFailure]

/-- Witness for the amended C6: with fee data (1, 1), no exceptions, no
simulation error and resolution code 0, the attempt out of state `⟨5, ∅, 0⟩`
succeeds and nonces 5 and 6 are removed from the in-flight set. -/
theorem executeSandwich_failure_handling_witness :
    (executeSandwich ⟨0, 0, 0⟩ ⟨0, ⟨some 1, some 1⟩, false, false, false, false, 0⟩
        ⟨0, none⟩ ⟨5, ∅, 0⟩).result = .ok true
    ∧ (executeSandwich ⟨0, 0, 0⟩ ⟨0, ⟨some 1, some 1⟩, false, false, false, false, 0⟩
        ⟨0, none⟩ ⟨5, ∅, 0⟩).state
        = confirmBundle 5 (5 + 1) (getNextNoncePair ⟨5, ∅, 0⟩).2
    ∧ 5 ∉ (executeSandwich ⟨0, 0, 0⟩ ⟨0, ⟨some 1, some 1⟩, false, false, false, false, 0⟩
        ⟨0, none⟩ ⟨5, ∅, 0⟩).state.pendingNonces
    ∧ 5 + 1 ∉ (executeSandwich ⟨0, 0, 0⟩ ⟨0, ⟨some 1, some 1⟩, false, false, false, false, 0⟩
        ⟨0, none⟩ ⟨5, ∅, 0⟩).state.pendingNonces :=
  (((executeSandwich_failure_handling ⟨0, 0, 0⟩
      ⟨0, ⟨some 1, some 1⟩, false, false, false, false, 0⟩ ⟨0, none⟩ ⟨5, ∅, 0⟩
      (by decide)).2.2 rfl rfl rfl (by decide)).2.2.2.1) rfl rfl rfl rfl

/-- **C7.** The profitability model of `executeSandwich`: gas cost is the
sum of the three per-transaction gas limits times the max fee per gas; net
profit is gross profit minus gas cost floored at zero; and with non-falsy
fee data `(maxFee, maxPrio)`, an attempt whose net profit falls below the
configured minimum is rejected with no transaction signed, while an attempt
that proceeds carries on its back-run transaction the priority fee
`maxPrio + (80% of net profit) / backGasLimit`. -/
theorem executeSandwich_profitability (p : Provider) (env : ExecEnv)
    (op : SandwichOp) (s : NonceState) (maxFee maxPrio : Nat)
    (hmf : env.feeData.maxFeePerGas = some maxFee)
    (hmp : env.feeData.maxPriorityFeePerGas = some maxPrio)
    (hmf0 : maxFee ≠ 0) (hmp0 : maxPrio ≠ 0)
    (hft : env.feeThrows = false)
    (hgross : env.minProfitWei ≤ op.estimatedProfitWei) :
    (∀ f v, totalGasCostWei f v = (frontGasLimit + v + backGasLimit) * f)
    ∧ (∀ pr g, (netProfitWei pr g : Int) = max 0 ((pr : Int) - (g : Int)))
    ∧ (netProfitWei op.estimatedProfitWei
        (totalGasCostWei maxFee (op.victimGasLimit.getD 200000)) < env.minProfitWei →
      (executeSandwich p env op s).signed = false
      ∧ (executeSandwich p env op s).result = .ok false
      ∧ (executeSandwich p env op s).backRunFee = none)
    ∧ (env.minProfitWei ≤ netProfitWei op.estimatedProfitWei
        (totalGasCostWei maxFee (op.victimGasLimit.getD 200000)) →
      (executeSandwich p env op s).backRunFee
        = some (maxPrio + netProfitWei op.estimatedProfitWei
            (totalGasCostWei maxFee (op.victimGasLimit.getD 200000)) * 80 / 100 / backGasLimit)) := by
  have hg : ¬ op.estimatedProfitWei < env.minProfitWei := not_lt.mpr hgross
  have hf1 : feeFalsy env.feeData.maxFeePerGas = false := by
    simp [feeFalsy, hmf, hmf0]
  have hf2 : feeFalsy env.feeData.maxPriorityFeePerGas = false := by
    simp [feeFalsy, hmp, hmp0]
  refine ⟨fun f v => ?_, fun pr g => ?_, fun hnet => ?_, fun hnet => ?_⟩
  · unfold totalGasCostWei
    ring
  · unfold netProfitWei
    split_ifs with h <;> omega
  · refine ⟨?_, ?_, ?_⟩ <;> simp [executeSandwich, hg, hft, hf1, hf2, hmf, hnet]
  · have hn : ¬ netProfitWei op.estimatedProfitWei
        (totalGasCostWei maxFee (op.victimGasLimit.getD 200000)) < env.minProfitWei :=
      not_lt.mpr hnet
    simp only [executeSandwich, hmf, hmp, Option.getD_some, hft, hf1, hf2,
      if_neg hg, if_neg hn, backRunPriorityFee, bribeAmountWei]
    split_ifs <;> first | rfl | simp_all [feeFalsy]

/-- Witness for C7: gross profit 2000 wei against minimum 1000 wei passes
the gate, but at max fee 1 wei/gas the gas cost 850000 wei wipes the
profit: net profit 0 < 1000, so the attempt is rejected unsigned. -/
theorem executeSandwich_profitability_witness :
    (executeSandwich ⟨0, 0, 0⟩ ⟨1000, ⟨some 1, some 1⟩, false, false, false, false, 0⟩
        ⟨2000, none⟩ ⟨3, ∅, 0⟩).signed = false
    ∧ (executeSandwich ⟨0, 0, 0⟩ ⟨1000, ⟨some 1, some 1⟩, false, false, false, false, 0⟩
        ⟨2000, none⟩ ⟨3, ∅, 0⟩).result = .ok false
    ∧ (executeSandwich ⟨0, 0, 0⟩ ⟨1000, ⟨some 1, some 1⟩, false, false, false, false, 0⟩
        ⟨2000, none⟩ ⟨3, ∅, 0⟩).backRunFee = none :=
  (executeSandwich_profitability ⟨0, 0, 0⟩
    ⟨1000, ⟨some 1, some 1⟩, false, false, false, false, 0⟩ ⟨2000, none⟩ ⟨3, ∅, 0⟩
    1 1 rfl rfl (by decide) (by decide) rfl (by decide)).2.2.1 (by decide)

/-! ## Cross-venue arbitrage scanner (`FlashLoanArbitrageBot`, src/unnamed/part_001) -/

/-- `MIN_PROFIT_PERCENT = 0.15` (src/unnamed/part_001, line 10), as an
exact rational; the source compares JS floats. -/
def minProfitPercent : ℚ := 15 / 100

/-- One exchange's view of a fixed token pair (A, B): `probeQuote` is
`getAmountsOut(baseBorrowAmount, [A, B])[1]` when the factory has a pair and
the call succeeds (`none` models the `continue` on a missing pair or thrown
call); `sellQuote x` is `getAmountsOut(x, [B, A])[1]`, `none` when that call
throws.  Quotes are deterministic within one scan, as the source assumes
when it re-queries the buy router for the same amount. -/
structure DexView where
  name : Nat
  probeQuote : Option Nat
  sellQuote : Nat → Option Nat

/-- `ethers.utils.parseUnits('100', tokenA.decimals)`. -/
def baseBorrowAmount (decimals : Nat) : Nat := 100 * 10 ^ decimals

/-- The `prices` array: dexes that returned a quote for the probe amount,
paired with that quote. -/
def pricedDexes (dexes : List DexView) : List (Nat × DexView) :=
  dexes.filterMap fun d => d.probeQuote.map fun q => (q, d)

/-- An emitted arbitrage candidate (the `Opportunity` fields the claims
are about). -/
structure ArbCand where
  buyDexName : Nat
  sellDexName : Nat
  profitPercent : ℚ
  estimatedProfit : Int
  borrowAmount : Nat
deriving DecidableEq

/-- `repayAmount = baseBorrowAmount.mul(10000 + 9).div(10000)` —
BigNumber integer division, i.e. the floor of `borrow × 1.0009`. -/
def repayAmount (borrow : Nat) : Nat := borrow * 10009 / 10000

/-- The body of the inner dex-pair loop of `findArbitrage`: pick the dex
with the *smaller* probe output as buy venue, re-query it for the probe
amount, quote the sell venue for the round trip, subtract the flash-loan
repayment, and emit a candidate when the profit is positive and the profit
percentage (computed exactly in `ℚ` where the source uses floats) meets
`MIN_PROFIT_PERCENT`. -/
def considerPair (borrow : Nat) (p1 p2 : Nat × DexView) : Option ArbCand :=
  let buyOnA := p1.1 < p2.1
  let buy := if buyOnA then p1 else p2
  let sell := if buyOnA then p2 else p1
  match buy.2.probeQuote with
  | none => none
  | some amountBOut =>
    match sell.2.sellQuote amountBOut with
    | none => none
    | some amountAOut =>
      let profit : Int := (amountAOut : Int) - (repayAmount borrow : Int)
      if 0 < profit then
        let profitPercent : ℚ := (profit : ℚ) / (borrow : ℚ) * 100
        if minProfitPercent ≤ profitPercent then
          some ⟨buy.2.name, sell.2.name, profitPercent, profit, borrow⟩
        else none
      else none

/-- All ordered index pairs `i < j` of a list, in source-loop order. -/
def pairsOf {α : Type} : List α → List (α × α)
  | [] => []
  | x :: xs => (xs.map fun y => (x, y)) ++ pairsOf xs

/-- `FlashLoanArbitrageBot.findArbitrage` for one token pair whose first
token has the given decimals: all candidates over the `i < j` dex pairs. -/
def findArbitrage (decimals : Nat) (dexes : List DexView) : List ArbCand :=
  (pairsOf (pricedDexes dexes)).filterMap fun pq =>
    considerPair (baseBorrowAmount decimals) pq.1 pq.2

/-- When the two priced dexes have distinct probe quotes, the inner-loop
body is insensitive to the order the outer `i < j` loop presents them in:
`buyOnA` flips, and the same cheaper venue ends up as buy side. -/
theorem considerPair_comm (borrow : Nat) (p1 p2 : Nat × DexView)
    (hlt : p1.1 < p2.1) :
    considerPair borrow p2 p1 = considerPair borrow p1 p2 := by
  have hgt : ¬ p2.1 < p1.1 := Nat.lt_asymm hlt
  unfold considerPair
  simp [hlt, hgt]

/-- **C8.** When dex `dA` quotes less output than dex `dB` for the probe
amount — in whichever order the scan loop presents the two to the
inner-loop body — the scanner buys on `dA` and sells on `dB`; an emitted
candidate's estimated profit is the round-trip output (buy B on `dA` for
the borrow amount, sell it back on `dB`) minus the flash-loan repayment
`⌊borrow × 1.0009⌋` — exactly `borrow × 1.0009` whenever `10000 ∣
10009 · borrow`, which holds for every probe amount `100 · 10^decimals`
with `decimals ≥ 2` the scanner uses — and a candidate is emitted only with
positive profit whose percentage of the borrow meets `MIN_PROFIT_PERCENT`. -/
theorem considerPair_buy_low_sell_high (borrow : Nat) (dA dB : DexView)
    (oA oB : Nat) (c : ArbCand)
    (hA : dA.probeQuote = some oA) (hB : dB.probeQuote = some oB) (hlt : oA < oB)
    (hc : considerPair borrow (oA, dA) (oB, dB) = some c
      ∨ considerPair borrow (oB, dB) (oA, dA) = some c) :
    c.buyDexName = dA.name ∧ c.sellDexName = dB.name
    ∧ (∃ out, dB.sellQuote oA = some out
        ∧ c.estimatedProfit = (out : Int) - (repayAmount borrow : Int)
        ∧ (10000 ∣ 10009 * borrow →
          (c.estimatedProfit : ℚ) = (out : ℚ) - (borrow : ℚ) * 10009 / 10000))
    ∧ 0 < c.estimatedProfit
    ∧ minProfitPercent ≤ c.profitPercent
    ∧ c.profitPercent = (c.estimatedProfit : ℚ) / (borrow : ℚ) * 100
    ∧ c.borrowAmount = borrow := by
  rw [considerPair_comm borrow (oA, dA) (oB, dB) hlt] at hc
  replace hc := hc.elim id id
  rcases hq : dB.sellQuote oA with _ | out
  · exfalso
    simp [considerPair, hlt, hA, hq] at hc
  · simp only [considerPair, hlt, if_true, hA, hq] at hc
    split_ifs at hc with h1 h2
    · rw [Option.some.injEq] at hc
      subst hc
      refine ⟨rfl, rfl, ⟨out, rfl, rfl, fun hdvd => ?_⟩, h1, h2, rfl, rfl⟩
      obtain ⟨k, hk⟩ := hdvd
      have hrepay : repayAmount borrow = k := by
        unfold repayAmount
        rw [mul_comm borrow 10009, hk]
        exact Nat.mul_div_cancel_left k (by norm_num)
      have h10 : (10009 : ℚ) * (borrow : ℚ) = 10000 * (k : ℚ) := by
        exact_mod_cast congrArg (fun n : ℕ => (n : ℚ)) hk
      have hQ : (borrow : ℚ) * 10009 / 10000 = (k : ℚ) := by
        field_simp
        linarith [h10]
      push_cast [hrepay]
      rw [hQ]

/-- The spec's worked example, dex side: venue 0 quotes 99 B for the
100-unit probe, venue 1 quotes 101 B, and selling 99 B back on venue 1
returns 101 A. -/
def exDexA : DexView := ⟨0, some 99, fun _ => none⟩

/-- Sell venue of the worked example. -/
def exDexB : DexView := ⟨1, some 101, fun x => some (x + 2)⟩

/-- Witness for C8: with borrow 100, quotes 99 < 101 and the *dearer*
venue presented first (as when the cheaper venue is configured later), the
emitted candidate still buys on venue 0, sells on venue 1, and has profit
101 − ⌊100 × 1.0009⌋ = 1 with percentage 1 ≥ 0.15. -/
theorem considerPair_buy_low_sell_high_witness :
    (⟨0, 1, 1, 1, 100⟩ : ArbCand).buyDexName = exDexA.name
    ∧ (⟨0, 1, 1, 1, 100⟩ : ArbCand).sellDexName = exDexB.name
    ∧ (∃ out, exDexB.sellQuote 99 = some out
        ∧ (⟨0, 1, 1, 1, 100⟩ : ArbCand).estimatedProfit
          = (out : Int) - (repayAmount 100 : Int)
        ∧ (10000 ∣ 10009 * 100 →
          ((⟨0, 1, 1, 1, 100⟩ : ArbCand).estimatedProfit : ℚ)
            = (out : ℚ) - (100 : ℚ) * 10009 / 10000))
    ∧ 0 < (⟨0, 1, 1, 1, 100⟩ : ArbCand).estimatedProfit
    ∧ minProfitPercent ≤ (⟨0, 1, 1, 1, 100⟩ : ArbCand).profitPercent
    ∧ (⟨0, 1, 1, 1, 100⟩ : ArbCand).profitPercent
      = ((⟨0, 1, 1, 1, 100⟩ : ArbCand).estimatedProfit : ℚ) / (100 : ℚ) * 100
    ∧ (⟨0, 1, 1, 1, 100⟩ : ArbCand).borrowAmount = 100 :=
  considerPair_buy_low_sell_high 100 exDexA exDexB 99 101 ⟨0, 1, 1, 1, 100⟩
    rfl rfl (by decide)
    (Or.inr
      (by simp [considerPair, exDexA, exDexB, repayAmount, minProfitPercent]; norm_num))

/-- `scanAllPairs` comparator step: keep the candidate with the larger
estimated profit (the source sorts descending by `estimatedProfit` and
takes index 0; ties are kept in comparator-dependent order, which none of
the stated properties depend on). -/
def pickBetter (best c : ArbCand) : ArbCand :=
  if best.estimatedProfit < c.estimatedProfit then c else best

/-- `opportunities.sort((a, b) => descending by estimatedProfit)[0]`. -/
def bestOpp : List ArbCand → Option ArbCand
  | [] => none
  | o :: rest => some (rest.foldl pickBetter o)

/-- The forwarding decision at the end of `scanAllPairs`: the top candidate
is passed to `executeOpportunity` only if its profit percentage meets
`MIN_PROFIT_PERCENT`; otherwise nothing is forwarded this cycle. -/
def scanSelect (opps : List ArbCand) : Option ArbCand :=
  match bestOpp opps with
  | none => none
  | some t => if minProfitPercent ≤ t.profitPercent then some t else none

/-- The candidate list one scan pass accumulates: `findArbitrage` over
every token pair, given each pair's first-token decimals and per-dex
quote views. -/
def concatCandidates : List (Nat × List DexView) → List ArbCand
  | [] => []
  | pd :: rest => findArbitrage pd.1 pd.2 ++ concatCandidates rest

/-- `FlashLoanArbitrageBot.scanAllPairs`: gather all candidates, then
forward at most the single best one. -/
def scanAllPairs (pairsData : List (Nat × List DexView)) : Option ArbCand :=
  scanSelect (concatCandidates pairsData)

theorem foldl_pickBetter_ge (l : List ArbCand) (a : ArbCand) :
    a.estimatedProfit ≤ (l.foldl pickBetter a).estimatedProfit
    ∧ ∀ o ∈ l, o.estimatedProfit ≤ (l.foldl pickBetter a).estimatedProfit := by
  induction l generalizing a with
  | nil => simp
  | cons x xs ih =>
    obtain ⟨h1, h2⟩ := ih (pickBetter a x)
    have ha : a.estimatedProfit ≤ (pickBetter a x).estimatedProfit := by
      unfold pickBetter
      split_ifs with h
      · exact le_of_lt h
      · exact le_refl _
    have hx : x.estimatedProfit ≤ (pickBetter a x).estimatedProfit := by
      unfold pickBetter
      split_ifs with h
      · exact le_refl _
      · exact le_of_not_lt h
    refine ⟨le_trans ha h1, ?_⟩
    intro o ho
    rcases List.mem_cons.mp ho with rfl | ho
    · exact le_trans hx h1
    · exact h2 o ho

theorem foldl_pickBetter_mem (l : List ArbCand) (a : ArbCand) :
    l.foldl pickBetter a = a ∨ l.foldl pickBetter a ∈ l := by
  induction l generalizing a with
  | nil => simp
  | cons x xs ih =>
    rw [List.foldl_cons]
    rcases ih (pickBetter a x) with h | h
    · rw [h]
      unfold pickBetter
      split_ifs
      · right
        exact List.mem_cons_self x xs
      · left
        rfl
    · right
      exact List.mem_cons_of_mem x h

theorem bestOpp_spec (l : List ArbCand) (t : ArbCand) (h : bestOpp l = some t) :
    t ∈ l ∧ ∀ o ∈ l, o.estimatedProfit ≤ t.estimatedProfit := by
  cases l with
  | nil => simp [bestOpp] at h
  | cons x xs =>
    rw [bestOpp, Option.some.injEq] at h
    subst h
    obtain ⟨h1, h2⟩ := foldl_pickBetter_ge xs x
    constructor
    · rcases foldl_pickBetter_mem xs x with h | h
      · rw [h]
        exact List.mem_cons_self x xs
      · exact List.mem_cons_of_mem x h
    · intro o ho
      rcases List.mem_cons.mp ho with rfl | ho
      · exact h1
      · exact h2 o ho

/-- **C9.** A scan cycle forwards at most one candidate (the codomain is an
`Option`): when `scanAllPairs` forwards `c`, then `c` is one of the
candidates found in that pass, no candidate of the pass has a larger
estimated profit, and `c`'s profit percentage meets `MIN_PROFIT_PERCENT` —
hence a candidate whose percentage is below the minimum is never
forwarded. -/
theorem scanAllPairs_forwards_best (pairsData : List (Nat × List DexView))
    (c : ArbCand) (hc : scanAllPairs pairsData = some c) :
    c ∈ concatCandidates pairsData
    ∧ (∀ o ∈ concatCandidates pairsData, o.estimatedProfit ≤ c.estimatedProfit)
    ∧ minProfitPercent ≤ c.profitPercent := by
  unfold scanAllPairs scanSelect at hc
  rcases hb : bestOpp (concatCandidates pairsData) with _ | t
  · rw [hb] at hc
    simp at hc
  · rw [hb] at hc
    change (if minProfitPercent ≤ t.profitPercent then some t else none) = some c at hc
    split_ifs at hc with hpct
    rw [Option.some.injEq] at hc
    subst hc
    obtain ⟨hmem, hge⟩ := bestOpp_spec _ _ hb
    exact ⟨hmem, hge, hpct⟩

/-- Witness for C9: a one-token-pair scan over the worked-example venues
forwards the single candidate found (profit 1, percentage 1 ≥ 0.15). -/
theorem scanAllPairs_forwards_best_witness :
    (⟨0, 1, 1, 1, 100⟩ : ArbCand) ∈ concatCandidates [(0, [exDexA, exDexB])]
    ∧ (∀ o ∈ concatCandidates [(0, [exDexA, exDexB])],
        o.estimatedProfit ≤ (⟨0, 1, 1, 1, 100⟩ : ArbCand).estimatedProfit)
    ∧ minProfitPercent ≤ (⟨0, 1, 1, 1, 100⟩ : ArbCand).profitPercent :=
  scanAllPairs_forwards_best [(0, [exDexA, exDexB])] ⟨0, 1, 1, 1, 100⟩
    (by
      simp [scanAllPairs, scanSelect, concatCandidates, findArbitrage, pairsOf,
        pricedDexes, baseBorrowAmount, bestOpp, considerPair, exDexA, exDexB,
        repayAmount, minProfitPercent, List.filterMap_cons, List.filterMap_nil, pickBetter]
      norm_num)

/-! ## Mempool decoder (`MempoolMonitor`, src/mempool.ts) -/

/-- A pending transaction's calldata as `iface.parseTransaction` decodes
it: one constructor per known router selector — `0x7ff36ab5`
`swapExactETHForTokens`, `0x18cbafe5` `swapExactTokensForETH`, `0x38ed1739`
`swapExactTokensForTokens`.  The `to`/`deadline` arguments are dropped: the
monitor never reads them. -/
inductive SwapCall where
  | ethForTokens (amountOutMin : Nat) (path : List Nat)
  | tokensForEth (amountIn amountOutMin : Nat) (path : List Nat)
  | tokensForTokens (amountIn amountOutMin : Nat) (path : List Nat)
deriving DecidableEq

/-- The fields of a fetched pending transaction that
`analyzeTransaction` reads: recipient (`none` = contract creation),
native value in wei, and the decoded call (`none` = unknown selector or
calldata that fails to decode).  Addresses are abstract `Nat` identifiers;
the source lowercases both sides before comparing, which the abstraction
absorbs. -/
structure PendingTx where
  toAddr : Option Nat
  value : Nat
  call : Option SwapCall
deriving DecidableEq

/-- Monitor configuration: the router address filter and the minimum trade
size.  The source compares trade sizes as ETH floats
(`parseFloat(formatEther(amountIn)) < minTradeValueEth`); here the
threshold is held exactly in wei. -/
structure MonitorCfg where
  router : Nat
  minTradeWei : Nat
deriving DecidableEq

/-- The emitted Sandwich-opportunity fields the claims are about.
`estimatedProfit` is the placeholder `amountIn * 0.003` heuristic as an
exact rational in wei (the source formats it as a fixed-point string). -/
structure SandwichOpp where
  tokenIn : Nat
  tokenOut : Nat
  amountIn : Nat
  estimatedProfit : ℚ
deriving DecidableEq

/-- `decoded.args.path` for each selector. -/
def swapPath : SwapCall → List Nat
  | .ethForTokens _ path => path
  | .tokensForEth _ _ path => path
  | .tokensForTokens _ _ path => path

/-- The input amount: the transaction's native value for the native-in
selector (`tx.value || 0n`), the explicit `amountIn` argument otherwise. -/
def swapAmountIn (value : Nat) : SwapCall → Nat
  | .ethForTokens _ _ => value
  | .tokensForEth amountIn _ _ => amountIn
  | .tokensForTokens amountIn _ _ => amountIn

/-- `MempoolMonitor.analyzeTransaction` (src/mempool.ts, lines 71-130):
router filter, selector decode, two-hop path check, minimum trade size,
then the opportunity with `tokenIn = path[0]`,
`tokenOut = path[path.length - 1]`. -/
def analyzeTransaction (cfg : MonitorCfg) (tx : PendingTx) : Option SandwichOpp :=
  if tx.toAddr ≠ some cfg.router then none
  else
    match tx.call with
    | none => none
    | some call =>
      let path := swapPath call
      if path.length < 2 then none
      else
        let amountIn := swapAmountIn tx.value call
        if amountIn < cfg.minTradeWei then none
        else some ⟨path.headD 0, path.getLastD 0, amountIn, (amountIn : ℚ) * 3 / 1000⟩

/-- One `'pending'` stream event as the `start` handler sees it: `none`
models a transaction or raw-bytes fetch that returned nothing or threw
(the handler's `try`/`catch` swallows it); otherwise the fetched fields. -/
def processPending (cfg : MonitorCfg) (fetched : Option PendingTx) : Option SandwichOpp :=
  fetched.bind (analyzeTransaction cfg)

/-- The stream of pending events: each event is handled independently and
only successful analyses invoke the opportunity callback. -/
def processStream (cfg : MonitorCfg) (events : List (Option PendingTx)) : List SandwichOpp :=
  events.filterMap (processPending cfg)

/-- **C10.** An opportunity is emitted only for a transaction addressed to
the router whose calldata decodes as one of the three swap selectors, with
a path of at least two hops and input amount (native value for the
native-in selector, the `amountIn` argument otherwise) at least the
configured minimum; a native-in swap whose value is below the minimum
yields nothing; and a failed fetch or analysis contributes nothing to the
stream while later events are still processed. -/
theorem analyzeTransaction_filters (cfg : MonitorCfg) (tx : PendingTx)
    (o : SandwichOpp) (ho : analyzeTransaction cfg tx = some o) :
    (tx.toAddr = some cfg.router
      ∧ ∃ call, tx.call = some call
        ∧ 2 ≤ (swapPath call).length
        ∧ cfg.minTradeWei ≤ swapAmountIn tx.value call
        ∧ o.amountIn = swapAmountIn tx.value call
        ∧ o.tokenIn = (swapPath call).headD 0
        ∧ o.tokenOut = (swapPath call).getLastD 0)
    ∧ (∀ (v amountOutMin : Nat) (path : List Nat), v < cfg.minTradeWei →
      analyzeTransaction cfg ⟨some cfg.router, v, some (.ethForTokens amountOutMin path)⟩
        = none)
    ∧ (∀ (ev : Option PendingTx) (rest : List (Option PendingTx)),
      processPending cfg ev = none →
      processStream cfg (ev :: rest) = processStream cfg rest)
    ∧ (∀ rest : List (Option PendingTx),
      processStream cfg (none :: rest) = processStream cfg rest) := by
  refine ⟨?_, ?_, ?_, ?_⟩
  · unfold analyzeTransaction at ho
    split_ifs at ho with hto
    rcases hcall : tx.call with _ | call
    · rw [hcall] at ho
      exact absurd ho (by simp)
    · rw [hcall] at ho
      change (if (swapPath call).length < 2 then none
        else if swapAmountIn tx.value call < cfg.minTradeWei then none
        else some ⟨(swapPath call).headD 0, (swapPath call).getLastD 0,
          swapAmountIn tx.value call,
          (swapAmountIn tx.value call : ℚ) * 3 / 1000⟩) = some o at ho
      split_ifs at ho with hlen hmin
      rw [Option.some.injEq] at ho
      subst ho
      push_neg at hto
      exact ⟨hto, call, rfl, by omega, le_of_not_lt hmin, rfl, rfl, rfl⟩
  · intro v amountOutMin path hv
    by_cases hlen : path.length < 2 <;>
      simp [analyzeTransaction, swapPath, swapAmountIn, hv, hlen]
  · intro ev rest hev
    simp [processStream, List.filterMap_cons, hev]
  · intro rest
    simp [processStream, List.filterMap_cons, processPending]

/-- Witness for C10: router 1, minimum 10 wei; a native-in swap of value 50
over path `[2, 3]` is emitted with `tokenIn = 2`, `tokenOut = 3`,
`amountIn = 50`. -/
theorem analyzeTransaction_filters_witness :
    ((⟨some 1, 50, some (.ethForTokens 0 [2, 3])⟩ : PendingTx).toAddr
        = some (⟨1, 10⟩ : MonitorCfg).router
      ∧ ∃ call, (⟨some 1, 50, some (.ethForTokens 0 [2, 3])⟩ : PendingTx).call = some call
        ∧ 2 ≤ (swapPath call).length
        ∧ (⟨1, 10⟩ : MonitorCfg).minTradeWei ≤ swapAmountIn 50 call
        ∧ (⟨2, 3, 50, 50 * 3 / 1000⟩ : SandwichOpp).amountIn = swapAmountIn 50 call
        ∧ (⟨2, 3, 50, 50 * 3 / 1000⟩ : SandwichOpp).tokenIn = (swapPath call).headD 0
        ∧ (⟨2, 3, 50, 50 * 3 / 1000⟩ : SandwichOpp).tokenOut = (swapPath call).getLastD 0)
    ∧ (∀ (v amountOutMin : Nat) (path : List Nat), v < (⟨1, 10⟩ : MonitorCfg).minTradeWei →
      analyzeTransaction ⟨1, 10⟩ ⟨some (⟨1, 10⟩ : MonitorCfg).router, v,
        some (.ethForTokens amountOutMin path)⟩ = none)
    ∧ (∀ (ev : Option PendingTx) (rest : List (Option PendingTx)),
      processPending ⟨1, 10⟩ ev = none →
      processStream ⟨1, 10⟩ (ev :: rest) = processStream ⟨1, 10⟩ rest)
    ∧ (∀ rest : List (Option PendingTx),
      processStream ⟨1, 10⟩ (none :: rest) = processStream ⟨1, 10⟩ rest) :=
  analyzeTransaction_filters ⟨1, 10⟩ ⟨some 1, 50, some (.ethForTokens 0 [2, 3])⟩
    ⟨2, 3, 50, 50 * 3 / 1000⟩
    (by simp [analyzeTransaction, swapPath, swapAmountIn])
